import Mathlib

/-!
Verification of the educational-visualization workflow engine
(project/app/agents: utils.py, nodes/, educational_workflow.py).

The embedding works over plain Lean strings (a Python str is a sequence
of characters; we operate on the character list of the Lean string, so
every Python slicing / splitting / membership operation has an exact
counterpart). External capabilities (the language model, the Python
byte-code compiler, the rendering subprocess, the filesystem scan for
produced media) are passed in as explicit oracle parameters, following
the dependency-boundary design of the code.
-/

namespace BBF

/-! ## Python-style character and string primitives -/

/-- Whitespace characters matched by Python regex backslash-s and str.strip
    (ASCII range, which is all the generated code can contain). -/
def isPySpace (c : Char) : Bool :=
  c = ' ' || c = '\t' || c = '\n' || c = '\r' || c = '\x0b' || c = '\x0c'

/-- Word characters matched by Python regex backslash-w (ASCII range). -/
def isWordChar (c : Char) : Bool :=
  c.isAlphanum || c = '_'

/-- Digit characters matched by Python regex backslash-d. -/
def isDigitChar (c : Char) : Bool :=
  c.isDigit

/-- Boolean infix test on character lists: the Python `pat in s` operator. -/
def infixOfB (p : List Char) : List Char → Bool
  | [] => p.isPrefixOf []
  | c :: rest => p.isPrefixOf (c :: rest) || infixOfB p rest

/-- Python `pat in s` membership test on strings. -/
def pyIn (pat s : String) : Bool := infixOfB pat.data s.data

/-- Characters of a string with leading and trailing whitespace removed. -/
def stripChars (l : List Char) : List Char :=
  ((l.dropWhile isPySpace).reverse.dropWhile isPySpace).reverse

/-- Python str.strip() with no arguments. -/
def pyStrip (s : String) : String := String.mk (stripChars s.data)

/-- Python s[:n] slicing (by characters). -/
def pyTake (n : Nat) (s : String) : String := String.mk (s.data.take n)

/-- Split a character list on the newline character: Python s.split("\n"). -/
def splitNl : List Char → List (List Char)
  | [] => [[]]
  | c :: rest =>
    match splitNl rest with
    | [] => [[c]]
    | l :: ls => if c = '\n' then [] :: l :: ls else (c :: l) :: ls

/-- Join character-list pieces with newline: Python "\n".join(pieces). -/
def joinNl : List (List Char) → List Char
  | [] => []
  | [l] => l
  | l :: l₂ :: ls => l ++ '\n' :: joinNl (l₂ :: ls)

/-- Lines of a string, Python s.split("\n"). -/
def pySplitLines (s : String) : List String := (splitNl s.data).map String.mk

/-- Python "\n".join(lines). -/
def pyJoinLines (ls : List String) : String := String.mk (joinNl (ls.map String.data))

/-- Python "; ".join(parts). -/
def joinSemicolon : List String → String
  | [] => ""
  | [s] => s
  | s :: s₂ :: rest => s ++ "; " ++ joinSemicolon (s₂ :: rest)

/-- A single-quote character as a string (the ASCII apostrophe, code 39),
    used to spell the quoted fragments of the source error messages. -/
def sq : String := String.mk [Char.ofNat 39]

/-- The backtick character (ASCII code 96) that delimits fenced blocks. -/
def btChar : Char := Char.ofNat 96

/-- The closing fence of a markdown code block: three backticks. -/
def closeFence : List Char := [btChar, btChar, btChar]

/-! ## Regex-shaped scanners

The code uses a handful of fixed regular expressions through re.search.
Each one is modelled by a deterministic scanner that tries to match at
every start position from the left, exactly as the backtracking engine
resolves these particular patterns (no pattern here admits more than one
backtracking resolution per start position, see the comments). -/

/-- Match the tail of pattern "\s*\n" greedily at the head of `rest`:
    the whitespace run is consumed up to and including its last newline
    (a greedy backslash-s-star followed by a mandatory newline consumes
    exactly that). Returns the remainder, or none if the whitespace run
    at the head contains no newline. -/
def consumeWsNl (rest : List Char) : Option (List Char) :=
  let w := rest.takeWhile isPySpace
  match w.reverse.findIdx? (fun c => c = '\n') with
  | none => none
  | some j => some (rest.drop (w.length - j))

/-- Lazy capture "(.*?)pat": the characters strictly before the first
    occurrence of `pat`, or none when `pat` does not occur. -/
def firstSplit (pat : List Char) : List Char → Option (List Char)
  | [] => if pat.isPrefixOf [] then some [] else none
  | c :: rest =>
    if pat.isPrefixOf (c :: rest) then some []
    else (firstSplit pat rest).map (fun l => c :: l)

/-- Try to match the fenced-block pattern tag ++ "\s*\n(.*?)```" at the
    current position; returns the capture group. -/
def matchFenceAt (tag : List Char) (s : List Char) : Option (List Char) :=
  if tag.isPrefixOf s then
    match consumeWsNl (s.drop tag.length) with
    | none => none
    | some rest => firstSplit closeFence rest
  else none

/-- re.search for the fenced-block pattern, scanning start positions left
    to right. -/
def searchFence (tag : List Char) : List Char → Option (List Char)
  | [] => matchFenceAt tag []
  | c :: rest =>
    match matchFenceAt tag (c :: rest) with
    | some r => some r
    | none => searchFence tag rest

/-- Fence opening tag for a json-tagged block. -/
def fenceJsonTag : List Char := closeFence ++ "json".data

/-- Fence opening tag for a python-tagged block. -/
def fencePythonTag : List Char := closeFence ++ "python".data

/-! ## utils.py: content normalization and code extraction -/

/-- One element of a structured LLM content list (a string, or an
    OpenAI-style content block: an optional "type" entry and an optional
    "text" entry). -/
inductive ContentItem where
  | str (s : String)
  | obj (ty : Option String) (text : Option String)

/-- The content field of an LLM response: either a plain string or a list
    of content blocks. -/
inductive LLMContent where
  | str (s : String)
  | parts (xs : List ContentItem)

/-- Text contributed by one content block in normalize_content. -/
def contentItemText : ContentItem → List String
  | .str s => [s]
  | .obj ty text =>
    if ty = some "text" then [text.getD ""]
    else
      match text with
      | some t => [t]
      | none => []

/-- Embedding of utils normalize_content: a string passes through, a list
    of blocks is flattened to its text parts joined by newlines. -/
def normalizeContent : LLMContent → String
  | .str s => s
  | .parts xs => pyJoinLines (xs.foldr (fun i acc => contentItemText i ++ acc) [])

/-- Embedding of utils.extract_code_block: prefer a python-tagged fenced
    block, then a generic fenced block, else the stripped content. -/
def extract_code_block (content : LLMContent) : String :=
  let s := normalizeContent content
  match searchFence fencePythonTag s.data with
  | some m => pyStrip (String.mk m)
  | none =>
    match searchFence closeFence s.data with
    | some m => pyStrip (String.mk m)
    | none => pyStrip s

/-! ## utils.py: JSON parsing with safe default -/

/-- A Python value produced by json.loads, as far as the intention
    detector inspects it: a string, a list, or anything else. -/
inductive PyVal where
  | str (s : String)
  | list (xs : List PyVal)
  | other

/-- A parsed JSON object (dict): json.loads is an external library call,
    passed in as an oracle returning the key-value pairs of the object,
    or none on a JSONDecodeError. -/
def JsonOracle : Type := String → Option (List (String × PyVal))

/-- The fenced-block isolation step of utils.parse_json_response: keep
    the capture of a json-tagged fenced block, else of a generic fenced
    block, else the whole text. -/
def extractJsonBlock (s : String) : String :=
  match searchFence fenceJsonTag s.data with
  | some m => String.mk m
  | none =>
    match searchFence closeFence s.data with
    | some m => String.mk m
    | none => s

/-- Embedding of utils.parse_json_response: normalize, isolate a fenced
    block, strip and parse; on parse failure return the fixed default
    dict, whose summary is the first 200 characters of the (unstripped)
    isolated content, or a fixed message when that content is empty. -/
def parse_json_response (loads : JsonOracle) (content : LLMContent) :
    List (String × PyVal) :=
  let s := extractJsonBlock (normalizeContent content)
  match loads (pyStrip s) with
  | some d => d
  | none =>
    [("curriculum", .str "unknown"),
     ("intention", .str "static"),
     ("concepts", .list []),
     ("summary", .str (if s ≠ "" then pyTake 200 s else "Unable to parse response"))]

/-! ## utils.py: code sanitization -/

/-- The disallowed substrings of sanitize_manim_code. -/
def dangerous_imports : List String :=
  ["subprocess", "os.system", "eval(", "exec(", "__import__", "importlib",
   "shutil.rmtree"]

/-- One iteration of the sanitizer loop: when the pattern occurs in the
    code, drop every line containing it and rejoin. -/
def removeDangerousStep (code pattern : String) : String :=
  if pyIn pattern code then
    pyJoinLines ((pySplitLines code).filter (fun line => ! pyIn pattern line))
  else code

/-- The dangerous-pattern removal loop of sanitize_manim_code. -/
def removeDangerous (code : String) : String :=
  dangerous_imports.foldl removeDangerousStep code

/-- True when the code contains a manim import statement. -/
def hasManimImport (code : String) : Bool :=
  pyIn "from manim import" code || pyIn "import manim" code

/-- The default import line the sanitizer prepends, with the trailing
    blank line. -/
def manimHeader : String := "from manim import *\n\n"

/-- Embedding of utils.sanitize_manim_code: drop lines containing a
    disallowed substring, then prepend the default manim import if no
    manim import is present. -/
def sanitize_manim_code (code : String) : String :=
  let code := removeDangerous code
  if ¬ hasManimImport code then manimHeader ++ code else code

/-- A line is clean when it contains none of the disallowed substrings. -/
def cleanLine (l : String) : Bool :=
  dangerous_imports.all (fun p => ! pyIn p l)

/-- The lines of a code string that survive sanitization. -/
def keptLines (code : String) : List String :=
  (pySplitLines code).filter cleanLine

/-- A line that satisfies the manim import-presence check on its own. -/
def importLine (l : String) : Bool :=
  pyIn "from manim import" l || pyIn "import manim" l

/-- Line-level view of one sanitizer iteration: drop the lines containing
    the pattern; an empty remainder collapses to the single empty line
    (joining no lines gives the empty string, whose line list is one
    empty line). -/
def stepLines (p : String) (ls : List String) : List String :=
  if ls.any (fun l => pyIn p l) then
    let f := ls.filter (fun l => ! pyIn p l)
    if f.isEmpty then [""] else f
  else ls

/-! ## utils.py: scene-name extraction -/

/-- Match the pattern "class\s+(\w+)\s*\(\s*Scene\s*\)" at the current
    position, returning the captured class name. Greedy runs followed by
    a mandatory non-member character leave no backtracking choice, so the
    scan is deterministic. -/
def matchSceneAt (s : List Char) : Option String :=
  if "class".data.isPrefixOf s then
    let r₁ := s.drop 5
    let w := r₁.takeWhile isPySpace
    if w = [] then none
    else
      let r₂ := r₁.drop w.length
      let name := r₂.takeWhile isWordChar
      if name = [] then none
      else
        match (r₂.drop name.length).dropWhile isPySpace with
        | '(' :: r₄ =>
          let r₅ := r₄.dropWhile isPySpace
          if "Scene".data.isPrefixOf r₅ then
            match (r₅.drop 5).dropWhile isPySpace with
            | ')' :: _ => some (String.mk name)
            | _ => none
          else none
        | _ => none
  else none

/-- The left-to-right scan of re.search for the Scene-class pattern. -/
def searchScene : List Char → Option String
  | [] => matchSceneAt []
  | c :: rest =>
    match matchSceneAt (c :: rest) with
    | some r => some r
    | none => searchScene rest

/-- Embedding of utils.extract_scene_name. -/
def extract_scene_name (code : String) : Option String :=
  searchScene code.data

/-! ## utils.py: static validation -/

/-- Embedding of utils.CodeValidationResult. -/
structure CodeValidationResult where
  is_valid : Bool
  error_message : Option String := none
  error_line : Option Nat := none
  suggestions : List String := []

/-- The payload of a Python SyntaxError raised by compile(): its message
    and line number. -/
structure PySyntaxError where
  msg : String
  lineno : Nat

/-- The Python compile(code, "<string>", "exec") builtin: an external
    capability, passed as an oracle that reports a syntax error or none. -/
def CompileOracle : Type := String → Option PySyntaxError

/-- Scanner for the sub-pattern "[^)]*\[\d+\]": walk forward over
    non-parenthesis characters looking for a bracketed digit run. -/
def raBracketScan : List Char → Bool
  | [] => false
  | c :: rest =>
    if c = ')' then false
    else
      (if c = '[' then
        let d := rest.takeWhile isDigitChar
        (¬ d.isEmpty) && ((rest.drop d.length).head? = some ']')
      else false)
      || raBracketScan rest

/-- re.search for the pattern "RightAngle\s*\([^)]*\[\d+\]". -/
def searchRightAngleBad : List Char → Bool
  | [] => false
  | c :: rest =>
    (if "RightAngle".data.isPrefixOf (c :: rest) then
      match ((c :: rest).drop 10).dropWhile isPySpace with
      | '(' :: r₂ => raBracketScan r₂
      | _ => false
    else false)
    || searchRightAngleBad rest

/-- Tail of the pattern "(polygon|triangle)\s*\[\s*\d+\s*\]" after the
    keyword has been consumed. -/
def polyIndexTail (r : List Char) : Bool :=
  match r.dropWhile isPySpace with
  | '[' :: r₂ =>
    let r₃ := r₂.dropWhile isPySpace
    let d := r₃.takeWhile isDigitChar
    (¬ d.isEmpty) &&
      (match ((r₃.drop d.length).dropWhile isPySpace) with
      | ']' :: _ => true
      | _ => false)
  | _ => false

/-- re.search for "(polygon|triangle)\s*\[\s*\d+\s*\]" (applied to
    already-lowercased text, modelling re.IGNORECASE). -/
def searchPolyIndex : List Char → Bool
  | [] => false
  | c :: rest =>
    (if "polygon".data.isPrefixOf (c :: rest) then polyIndexTail ((c :: rest).drop 7)
     else if "triangle".data.isPrefixOf (c :: rest) then polyIndexTail ((c :: rest).drop 8)
     else false)
    || searchPolyIndex rest

/-- Tail of the pattern "=\s*(polygon|triangle)\s*\[" after the equal
    sign has been consumed. -/
def assignPolyTail (rest : List Char) : Bool :=
  let r := rest.dropWhile isPySpace
  let brkt : List Char → Bool := fun l =>
    match l.dropWhile isPySpace with
    | '[' :: _ => true
    | _ => false
  if "polygon".data.isPrefixOf r then brkt (r.drop 7)
  else if "triangle".data.isPrefixOf r then brkt (r.drop 8)
  else false

/-- re.search for "=\s*(polygon|triangle)\s*\[" (applied to lowercased
    text, modelling re.IGNORECASE). -/
def searchAssignPoly : List Char → Bool
  | [] => false
  | c :: rest => (if c = '=' then assignPolyTail rest else false) || searchAssignPoly rest

/-- Embedding of utils.check_common_manim_issues: the first heuristic
    API-misuse detector to fire wins; the returned list is the primary
    error followed by the suggestions. (The 2D-point heuristic of the
    source deliberately never fires and never contributes.) -/
def check_common_manim_issues (code : String) : Option (List String) :=
  let lower := code.data.map Char.toLower
  if pyIn "RightAngle(" code && searchRightAngleBad code.data then
    some ["Incorrect use of RightAngle: RightAngle takes Line objects, not polygon indices",
          "Use " ++ sq ++ "Elbow(width=0.3, angle=-PI/2)" ++ sq ++
            " or a small Square for right angle markers"]
  else if searchPolyIndex lower && ¬ searchAssignPoly lower then
    some ["Potentially incorrect Polygon indexing: Polygon submobjects are not vertices",
          "Use explicit vertex coordinates [x, y, 0] instead of indexing into polygons"]
  else if (pyIn "np.array(" code || pyIn "np.arctan" code || pyIn "np.cos" code ||
            pyIn "np.sin" code) &&
          (¬ pyIn "import numpy" code && ¬ pyIn "from numpy" code) &&
          (¬ pyIn "from manim import *" code) then
    some ["Using numpy functions (np.) without proper import",
          "Either add " ++ sq ++ "import numpy as np" ++ sq ++ " or use " ++ sq ++
            "from manim import *" ++ sq ++ " which includes numpy"]
  else none

/-- Embedding of utils.validate_manim_code, with the Python compiler as
    an oracle. The checks run in source order: empty code, manim-import
    advisory, Scene class, construct method, syntax compilation, common
    API-misuse heuristics. -/
def validate_manim_code (compileFn : CompileOracle) (code : String) :
    CodeValidationResult :=
  if code = "" || pyStrip code = "" then
    { is_valid := false, error_message := some "Code is empty",
      suggestions := ["Provide valid Manim code with a Scene class"] }
  else
    let suggestions :=
      if ¬ hasManimImport code then
        ["Add " ++ sq ++ "from manim import *" ++ sq ++ " at the top"]
      else []
    match extract_scene_name code with
    | none =>
      { is_valid := false, error_message := some "No Scene class found in code",
        suggestions := ["Create a class that inherits from Scene, e.g., " ++ sq ++
          "class MyScene(Scene):" ++ sq] }
    | some _ =>
      if ¬ pyIn "def construct(self" code then
        { is_valid := false,
          error_message := some "No construct method found in Scene class",
          suggestions := ["Add " ++ sq ++ "def construct(self):" ++ sq ++
            " method to your Scene class"] }
      else
        match compileFn code with
        | some e =>
          { is_valid := false, error_message := some ("Syntax error: " ++ e.msg),
            error_line := some e.lineno,
            suggestions := ["Fix syntax error on line " ++ toString e.lineno ++
              ": " ++ e.msg] }
        | none =>
          match check_common_manim_issues code with
          | some issues =>
            { is_valid := false, error_message := issues.head?,
              suggestions := issues.tail }
          | none => { is_valid := true, suggestions := suggestions }

/-! ## schemas/educational.py: the run state

The run state is the dict threaded through the workflow. The fields are
those initialised by run_educational_workflow (the retry_count key is
carried in the dict alongside the declared EducationalState keys).
detected_concepts and analysis_summary hold whatever JSON values the
parsed response supplied. -/

/-- Embedding of the per-run workflow state dict. -/
structure EducationalState where
  pdf_text : String
  user_query : Option String
  curriculum_component : String
  intention_type : String
  detected_concepts : List PyVal
  analysis_summary : PyVal
  manim_code : String
  code_explanation : String
  media_path : Option String
  media_type : Option String
  execution_status : String
  error_message : Option String
  retry_count : Nat

/-! ## nodes/intention_detector.py -/

/-- Valid curriculum components. -/
def curriculumValues : List String := ["math", "chemistry", "physics", "unknown"]

/-- Valid intention types. -/
def intentionValues : List String := ["static", "dynamic", "improvement"]

/-- Embedding of the intention_detector node. The LLM call is the oracle
    pair (response content, json.loads); the prompt construction feeds
    only the oracle and does not touch the state. -/
def intention_detector (loads : JsonOracle) (response : LLMContent)
    (state : EducationalState) : EducationalState :=
  let parsed := parse_json_response loads response
  let curriculum := (parsed.lookup "curriculum").getD (.str "unknown")
  let curriculum :=
    match curriculum with
    | .str s => if curriculumValues.contains s then s else "unknown"
    | _ => "unknown"
  let intention := (parsed.lookup "intention").getD (.str "static")
  let intention :=
    match intention with
    | .str s => if intentionValues.contains s then s else "static"
    | _ => "static"
  let concepts := (parsed.lookup "concepts").getD (.list [])
  let concepts :=
    match concepts with
    | .list xs => xs
    | _ => []
  let summary := (parsed.lookup "summary").getD (.str "")
  { state with
    curriculum_component := curriculum,
    intention_type := intention,
    detected_concepts := concepts,
    analysis_summary := summary }

/-! ## nodes: the three generation strategies

Each strategy renders a prompt (input to the LLM oracle only), extracts
a code block from the oracle response and sanitizes it. -/

/-- Embedding of the static_generator node. -/
def static_generator (response : LLMContent) (state : EducationalState) :
    EducationalState :=
  { state with
    manim_code := sanitize_manim_code (extract_code_block response),
    code_explanation :=
      "Static visualization generated for " ++ state.curriculum_component ++ " content" }

/-- Embedding of the dynamic_generator node. -/
def dynamic_generator (response : LLMContent) (state : EducationalState) :
    EducationalState :=
  { state with
    manim_code := sanitize_manim_code (extract_code_block response),
    code_explanation :=
      "Dynamic animation generated for " ++ state.curriculum_component ++ " content" }

/-- Embedding of the improvement_agent node. -/
def improvement_agent (response : LLMContent) (state : EducationalState) :
    EducationalState :=
  { state with
    manim_code := sanitize_manim_code (extract_code_block response),
    code_explanation := "Code improved based on user feedback" }

/-! ## nodes/code_fixer.py -/

/-- Embedding of the code_fixer node: the repair prompt (error details,
    validator re-run, line-numbered listing) is input to the LLM oracle
    only; the state update extracts and sanitizes the oracle response,
    clears the error, resets the status and increments the retry count. -/
def code_fixer (response : LLMContent) (state : EducationalState) :
    EducationalState :=
  let current_retries := state.retry_count
  let fixed_code := sanitize_manim_code (extract_code_block response)
  { state with
    manim_code := fixed_code,
    error_message := none,
    execution_status := "pending",
    retry_count := current_retries + 1 }

/-! ## nodes/media_generator.py -/

/-- Result of the manim rendering subprocess when it ran to completion. -/
structure SubprocessResult where
  returncode : Int
  stdout : String
  stderr : String

/-- Outcome of the try-block around the subprocess call: completion,
    subprocess.TimeoutExpired, or any other exception (whose text is
    carried). -/
inductive ExecOutcome where
  | completed (r : SubprocessResult)
  | timeout
  | exn (msg : String)

/-- External capabilities of one media-generation attempt: the Python
    compiler used by validation, the subprocess outcome, the suffix of
    the media file found under the working directory (none when no
    artifact was produced), and the unique filename id (first 8
    characters of a fresh uuid4). -/
structure MediaEnv where
  pyCompile : CompileOracle
  exec : ExecOutcome
  foundMedia : Option String
  fileId : String

/-- The return site taken by one media_generator invocation, in source
    order. The subprocess is spawned exactly on the branches at or after
    execTimeout. -/
inductive MediaBranch where
  | noCode
  | invalidCode
  | sceneNotFound
  | execTimeout
  | execExn
  | execFailed
  | noOutput
  | success
deriving DecidableEq

/-- True when the branch lies past the subprocess.run call, i.e. a
    rendering subprocess was spawned on the way to it. -/
def branchSpawned : MediaBranch → Bool
  | .noCode => false
  | .invalidCode => false
  | .sceneNotFound => false
  | _ => true

/-- State and return-site of one media_generator invocation. -/
structure MediaResult where
  state : EducationalState
  branch : MediaBranch

/-- Embedding of the media_generator node. Filesystem side effects
    (directory creation, file write, artifact copy, cleanup) do not read
    or write the run state and are outside the state model; the artifact
    search result enters through the environment. -/
def media_generator (env : MediaEnv) (state : EducationalState) : MediaResult :=
  let retry_count := state.retry_count
  if state.manim_code = "" then
    ⟨{ state with
        execution_status := "failed",
        error_message := some "No Manim code to execute",
        retry_count := retry_count }, .noCode⟩
  else
    let validation_result := validate_manim_code env.pyCompile state.manim_code
    if validation_result.is_valid = false then
      let error_msg := validation_result.error_message.getD "Code validation failed"
      let error_msg :=
        if ¬ validation_result.suggestions.isEmpty then
          error_msg ++ ". Suggestions: " ++ joinSemicolon validation_result.suggestions
        else error_msg
      ⟨{ state with
          execution_status := "failed",
          error_message := some error_msg,
          retry_count := retry_count }, .invalidCode⟩
    else
      match extract_scene_name state.manim_code with
      | none =>
        ⟨{ state with
            execution_status := "failed",
            error_message := some "Could not find Scene class in the code",
            retry_count := retry_count }, .sceneNotFound⟩
      | some scene_name =>
        match env.exec with
        | .timeout =>
          ⟨{ state with
              execution_status := "failed",
              error_message := some "Manim execution timed out (120s limit)",
              retry_count := retry_count }, .execTimeout⟩
        | .exn msg =>
          ⟨{ state with
              execution_status := "failed",
              error_message := some ("Error during media generation: " ++ msg),
              retry_count := retry_count }, .execExn⟩
        | .completed result =>
          if result.returncode ≠ 0 then
            let error_msg :=
              if result.stderr ≠ "" then result.stderr
              else if result.stdout ≠ "" then result.stdout
              else "Unknown Manim error"
            ⟨{ state with
                execution_status := "failed",
                error_message := some ("Manim execution failed: " ++ pyTake 1000 error_msg),
                retry_count := retry_count }, .execFailed⟩
          else
            match env.foundMedia with
            | none =>
              ⟨{ state with
                  execution_status := "failed",
                  error_message := some "Manim ran successfully but no output file was found",
                  retry_count := retry_count }, .noOutput⟩
            | some extension =>
              let output_filename := scene_name ++ "_" ++ env.fileId ++ extension
              let media_type := if extension = ".mp4" then "video/mp4" else "image/png"
              let relative_path := "/static/generated/" ++ output_filename
              ⟨{ state with
                  media_path := some relative_path,
                  media_type := some media_type,
                  execution_status := "success",
                  error_message := none,
                  retry_count := retry_count }, .success⟩

/-! ## educational_workflow.py: the state machine -/

/-- Maximum number of retry attempts for code fixing. -/
def MAX_RETRIES : Nat := 5

/-- The graph nodes, plus the END sentinel. -/
inductive Node where
  | intentionDetector
  | staticGenerator
  | dynamicGenerator
  | improvementAgent
  | mediaGenerator
  | codeFixer
  | endNode
deriving DecidableEq

/-- Embedding of route_by_intention: the routing map keyed on
    intention_type, defaulting to the static generator. -/
def route_by_intention (state : EducationalState) : Node :=
  if state.intention_type = "static" then .staticGenerator
  else if state.intention_type = "dynamic" then .dynamicGenerator
  else if state.intention_type = "improvement" then .improvementAgent
  else .staticGenerator

/-- Embedding of route_after_media_generation: success ends the run,
    failure with retries remaining goes to the code fixer, anything else
    ends the run. -/
def route_after_media_generation (state : EducationalState) : Node :=
  if state.execution_status = "success" then .endNode
  else if state.execution_status = "failed" && state.retry_count < MAX_RETRIES then
    .codeFixer
  else .endNode

/-- The oracle data consumed by one run: the intention-classification
    response and json parser, one response per generation strategy, the
    response of the k-th code_fixer call and the environment of the k-th
    media_generator call. -/
structure WorkflowEnv where
  loads : JsonOracle
  detectResponse : LLMContent
  genResponse : LLMContent
  fixResponse : Nat → LLMContent
  mediaEnv : Nat → MediaEnv

/-- A point in a run: the node about to execute, the current state, and
    how many media-generation and code-fixing invocations happened so
    far. -/
structure Config where
  node : Node
  state : EducationalState
  mediaCalls : Nat
  fixCalls : Nat

/-- One transition of the compiled graph: execute the node at hand and
    follow its (conditional) outgoing edge. none at END. -/
def step (env : WorkflowEnv) (cfg : Config) : Option Config :=
  match cfg.node with
  | .intentionDetector =>
    let s := intention_detector env.loads env.detectResponse cfg.state
    some ⟨route_by_intention s, s, cfg.mediaCalls, cfg.fixCalls⟩
  | .staticGenerator =>
    some ⟨.mediaGenerator, static_generator env.genResponse cfg.state,
      cfg.mediaCalls, cfg.fixCalls⟩
  | .dynamicGenerator =>
    some ⟨.mediaGenerator, dynamic_generator env.genResponse cfg.state,
      cfg.mediaCalls, cfg.fixCalls⟩
  | .improvementAgent =>
    some ⟨.mediaGenerator, improvement_agent env.genResponse cfg.state,
      cfg.mediaCalls, cfg.fixCalls⟩
  | .mediaGenerator =>
    let r := media_generator (env.mediaEnv cfg.mediaCalls) cfg.state
    some ⟨route_after_media_generation r.state, r.state,
      cfg.mediaCalls + 1, cfg.fixCalls⟩
  | .codeFixer =>
    some ⟨.mediaGenerator, code_fixer (env.fixResponse cfg.fixCalls) cfg.state,
      cfg.mediaCalls, cfg.fixCalls + 1⟩
  | .endNode => none

/-- The fresh state initialised by run_educational_workflow. -/
def initialState (pdf_text : String) (user_query : Option String)
    (existing_code : Option String) : EducationalState :=
  { pdf_text := pdf_text
    user_query := user_query
    curriculum_component := "unknown"
    intention_type := "static"
    detected_concepts := []
    analysis_summary := .str ""
    manim_code := existing_code.getD ""
    code_explanation := ""
    media_path := none
    media_type := none
    execution_status := "pending"
    error_message := none
    retry_count := 0 }

/-- The entry configuration of a fresh run. -/
def initConfig (pdf_text : String) (user_query : Option String)
    (existing_code : Option String) : Config :=
  ⟨.intentionDetector, initialState pdf_text user_query existing_code, 0, 0⟩

/-- Reachability along workflow transitions from a start configuration. -/
inductive Reaches (env : WorkflowEnv) (c₀ : Config) : Config → Prop
  | refl : Reaches env c₀ c₀
  | tail {c c' : Config} : Reaches env c₀ c → step env c = some c' → Reaches env c₀ c'

/-- Run at most n transitions from a configuration (stops at END). -/
def runSteps (env : WorkflowEnv) : Nat → Config → Config
  | 0, c => c
  | n + 1, c =>
    match step env c with
    | some c' => runSteps env n c'
    | none => c

/-! ## Concrete fixtures

Closed inputs used to exercise the embedding on evaluable runs: a valid
manim scene, the oracle responses feeding it through the workflow, and
environments for the failure paths. -/

/-- A minimal manim scene accepted by the static validator. -/
def okCode : String :=
  "from manim import *\n\nclass MyScene(Scene):\n    def construct(self):\n        pass"

/-- A model response carrying okCode in a python-tagged fenced block. -/
def okResponse : LLMContent := .str ("```python\n" ++ okCode ++ "\n```")

/-- A media environment whose rendering subprocess succeeds and leaves an
    mp4 artifact. -/
def okMediaEnv : MediaEnv :=
  { pyCompile := fun _ => none
    exec := .completed { returncode := 0, stdout := "", stderr := "" }
    foundMedia := some ".mp4"
    fileId := "abcd1234" }

/-- Oracle data for a run in which classification falls back to the
    static default and the first execution succeeds. -/
def wEnv : WorkflowEnv :=
  { loads := fun _ => none
    detectResponse := .str "x"
    genResponse := okResponse
    fixResponse := fun _ => .str ""
    mediaEnv := fun _ => okMediaEnv }

/-- The terminal configuration of the successful concrete run. -/
def wFinal : Config := runSteps wEnv 3 (initConfig "pdf" none none)

/-- A run state holding okCode, ready for media generation. -/
def okState : EducationalState :=
  { initialState "p" none none with manim_code := okCode }

/-- A captured stderr longer than the 1000-character bound whose head and
    tail differ. -/
def c9Stderr : String := String.mk ('Z' :: List.replicate 1000 'a')

/-- A media environment whose subprocess exits nonzero with both stderr
    and stdout captured. -/
def c9Env : MediaEnv :=
  { pyCompile := fun _ => none
    exec := .completed { returncode := 1, stdout := "out1", stderr := c9Stderr }
    foundMedia := none
    fileId := "abcd1234" }

/-- A media environment whose subprocess exits nonzero with a short
    stderr. -/
def failMediaEnv : MediaEnv :=
  { pyCompile := fun _ => none
    exec := .completed { returncode := 1, stdout := "", stderr := "boom" }
    foundMedia := none
    fileId := "abcd1234" }

/-- Modelled from the spec: the tail of a string bounded to n characters
    (used to state the spec reading of the truncation; the code uses the
    head, pyTake). -/
def tailChars (n : Nat) (s : String) : String :=
  String.mk (s.data.drop (s.data.length - n))

/-! ## Infix machinery: the Python membership operator versus IsInfix -/

theorem isPrefixOf_nil_iff {p : List Char} : p.isPrefixOf ([] : List Char) = true ↔ p = [] := by
  cases p <;> simp [List.isPrefixOf]

theorem infixOfB_iff {p s : List Char} : infixOfB p s = true ↔ p <:+: s := by
  induction s with
  | nil => simp [infixOfB, isPrefixOf_nil_iff]
  | cons c rest ih =>
    simp only [infixOfB, Bool.or_eq_true, List.isPrefixOf_iff_prefix, ih,
      List.infix_cons_iff]

theorem pyIn_iff {pat s : String} : pyIn pat s = true ↔ pat.data <:+: s.data := by
  simpa [pyIn] using infixOfB_iff

theorem pyIn_false_iff {pat s : String} : pyIn pat s = false ↔ ¬ pat.data <:+: s.data := by
  rw [← pyIn_iff]
  cases h : pyIn pat s <;> simp

theorem prefix_append_sandwich {p a b : List Char} {c : Char}
    (h : p <+: a ++ c :: b) (hc : c ∉ p) : p <+: a := by
  induction a generalizing p with
  | nil =>
    cases p with
    | nil => exact List.nil_prefix
    | cons d p' =>
      exfalso
      rcases h with ⟨t, ht⟩
      simp only [List.nil_append, List.cons_append, List.cons.injEq] at ht
      exact hc (ht.1 ▸ List.mem_cons_self d p')
  | cons x a' ih =>
    cases p with
    | nil => exact List.nil_prefix
    | cons d p' =>
      rcases h with ⟨t, ht⟩
      simp only [List.cons_append, List.cons.injEq] at ht
      rcases ht with ⟨hdx, htail⟩
      have hp' : p' <+: a' ++ c :: b := ⟨t, htail⟩
      have : p' <+: a' := ih hp' (fun hm => hc (List.mem_cons_of_mem d hm))
      subst hdx
      rcases this with ⟨u, hu⟩
      exact ⟨u, by simp [← hu]⟩

theorem infix_append_sandwich {p a b : List Char} {c : Char}
    (h : p <:+: a ++ c :: b) (hc : c ∉ p) : p <:+: a ∨ p <:+: b := by
  induction a generalizing p with
  | nil =>
    simp only [List.nil_append, List.infix_cons_iff] at h
    rcases h with h | h
    · have : p <+: ([] : List Char) := prefix_append_sandwich (a := []) h hc
      simp only [List.prefix_nil] at this
      subst this
      exact Or.inr List.nil_infix
    · exact Or.inr h
  | cons x a' ih =>
    rw [List.cons_append, List.infix_cons_iff] at h
    rcases h with h | h
    · have : p <+: x :: a' := prefix_append_sandwich (a := x :: a') (by simpa using h) hc
      exact Or.inl this.isInfix
    · rcases ih h hc with h' | h'
      · exact Or.inl (List.infix_cons h')
      · exact Or.inr h'

/-! ## Newline splitting and joining -/

theorem splitNl_ne_nil (s : List Char) : splitNl s ≠ [] := by
  cases s with
  | nil => simp [splitNl]
  | cons c rest =>
    simp only [splitNl]
    rcases h : splitNl rest with _ | ⟨l, ls⟩ <;> simp [h]
    split <;> simp

theorem joinNl_cons_cons (l : List Char) {ls : List (List Char)} (h : ls ≠ []) :
    joinNl (l :: ls) = l ++ '\n' :: joinNl ls := by
  cases ls with
  | nil => exact absurd rfl h
  | cons l₂ rest => rfl

theorem joinNl_splitNl (s : List Char) : joinNl (splitNl s) = s := by
  induction s with
  | nil => rfl
  | cons c rest ih =>
    rcases h : splitNl rest with _ | ⟨l, ls⟩
    · exact absurd h (splitNl_ne_nil rest)
    · rw [h] at ih
      by_cases hc : c = '\n'
      · subst hc
        have hjoin : joinNl ([] :: l :: ls) = '\n' :: joinNl (l :: ls) :=
          joinNl_cons_cons [] (by simp)
        simp [splitNl, h, hjoin, ih]
      · simp only [splitNl, h, if_neg hc]
        cases ls with
        | nil => simpa [joinNl] using ih
        | cons l₃ ls' =>
          rw [joinNl_cons_cons (c :: l) (by simp)]
          rw [joinNl_cons_cons l (by simp)] at ih
          simpa using ih

theorem not_nl_mem_splitNl {s : List Char} {l : List Char} (hl : l ∈ splitNl s) :
    '\n' ∉ l := by
  induction s generalizing l with
  | nil =>
    simp only [splitNl, List.mem_singleton] at hl
    simp [hl]
  | cons c rest ih =>
    cases h : splitNl rest with
    | nil => exact absurd h (splitNl_ne_nil rest)
    | cons l₀ ls =>
      simp only [splitNl, h] at hl
      by_cases hc : c = '\n'
      · subst hc
        simp only [if_true, List.mem_cons] at hl
        rcases hl with rfl | rfl | hl
        · simp
        · exact ih (h ▸ List.mem_cons_self _ _)
        · exact ih (h ▸ List.mem_cons_of_mem _ hl)
      · simp only [if_neg hc, List.mem_cons] at hl
        rcases hl with rfl | hl
        · intro hmem
          rcases List.mem_cons.mp hmem with rfl | hmem
          · exact hc rfl
          · exact ih (h ▸ List.mem_cons_self l₀ ls) hmem
        · exact ih (h ▸ List.mem_cons_of_mem l₀ hl)

theorem splitNl_no_nl {l : List Char} (h : '\n' ∉ l) : splitNl l = [l] := by
  induction l with
  | nil => rfl
  | cons c rest ih =>
    have hc : c ≠ '\n' := fun hc => h (hc ▸ List.mem_cons_self c rest)
    have hrest : '\n' ∉ rest := fun hm => h (List.mem_cons_of_mem c hm)
    simp [splitNl, ih hrest, hc]

theorem splitNl_append_nl {l x : List Char} (h : '\n' ∉ l) :
    splitNl (l ++ '\n' :: x) = l :: splitNl x := by
  induction l with
  | nil =>
    simp only [List.nil_append, splitNl]
    rcases hx : splitNl x with _ | ⟨l₀, ls⟩
    · exact absurd hx (splitNl_ne_nil x)
    · simp
  | cons c rest ih =>
    have hc : c ≠ '\n' := fun hc => h (hc ▸ List.mem_cons_self c rest)
    have hrest : '\n' ∉ rest := fun hm => h (List.mem_cons_of_mem c hm)
    simp only [List.cons_append, splitNl, List.append_eq, ih hrest, if_neg hc]

theorem splitNl_joinNl {ls : List (List Char)} (hne : ls ≠ [])
    (hnl : ∀ l ∈ ls, '\n' ∉ l) : splitNl (joinNl ls) = ls := by
  induction ls with
  | nil => exact absurd rfl hne
  | cons l rest ih =>
    cases rest with
    | nil => simpa [joinNl] using splitNl_no_nl (hnl l (List.mem_cons_self l []))
    | cons l₂ rest' =>
      rw [joinNl_cons_cons l (by simp)]
      rw [splitNl_append_nl (hnl l (List.mem_cons_self l _))]
      rw [ih (by simp) (fun l' hl' => hnl l' (List.mem_cons_of_mem l hl'))]

theorem infix_joinNl {p : List Char} {ls : List (List Char)}
    (hnl : '\n' ∉ p) (hne : p ≠ []) (h : p <:+: joinNl ls) :
    ∃ l ∈ ls, p <:+: l := by
  induction ls with
  | nil =>
    simp only [joinNl, List.infix_nil] at h
    exact absurd h hne
  | cons l rest ih =>
    cases rest with
    | nil => exact ⟨l, List.mem_cons_self l [], by simpa [joinNl] using h⟩
    | cons l₂ rest' =>
      rw [joinNl_cons_cons l (by simp)] at h
      rcases infix_append_sandwich h hnl with h' | h'
      · exact ⟨l, List.mem_cons_self l _, h'⟩
      · rcases ih h' with ⟨l', hl', hp⟩
        exact ⟨l', List.mem_cons_of_mem l hl', hp⟩

theorem mem_infix_joinNl {l : List Char} {ls : List (List Char)} (hl : l ∈ ls) :
    l <:+: joinNl ls := by
  induction ls with
  | nil => simp at hl
  | cons l₀ rest ih =>
    rcases List.mem_cons.mp hl with rfl | hl
    · cases rest with
      | nil => simp [joinNl]
      | cons l₂ rest' =>
        rw [joinNl_cons_cons l (by simp)]
        exact (List.prefix_append l ('\n' :: joinNl (l₂ :: rest'))).isInfix
    · cases rest with
      | nil => simp at hl
      | cons l₂ rest' =>
        rw [joinNl_cons_cons l₀ (by simp)]
        have h₁ : l <:+: joinNl (l₂ :: rest') := ih hl
        rcases h₁ with ⟨s, t, hst⟩
        exact ⟨l₀ ++ '\n' :: s, t, by simp [← hst]⟩

theorem splitNl_nl_cons (x : List Char) : splitNl ('\n' :: x) = [] :: splitNl x := by
  cases h : splitNl x with
  | nil => exact absurd h (splitNl_ne_nil x)
  | cons l ls => simp [splitNl, h]

/-! ## Bridges between the String wrappers and the character level -/

theorem mk_data (s : String) : String.mk s.data = s := rfl

theorem mem_splitLines_iff {l c : String} :
    l ∈ pySplitLines c ↔ l.data ∈ splitNl c.data := by
  constructor
  · intro h
    rcases List.mem_map.mp h with ⟨d, hd, rfl⟩
    exact hd
  · intro h
    exact List.mem_map.mpr ⟨l.data, h, mk_data l⟩

theorem map_data_splitLines (c : String) :
    (pySplitLines c).map String.data = splitNl c.data := by
  simp [pySplitLines, List.map_map, Function.comp_def]

theorem joinLines_splitLines (c : String) : pyJoinLines (pySplitLines c) = c := by
  rw [pyJoinLines, map_data_splitLines, joinNl_splitNl, mk_data]

theorem pyIn_eq_any_lines (p c : String) (hnl : '\n' ∉ p.data) (hne : p.data ≠ []) :
    pyIn p c = (pySplitLines c).any (fun l => pyIn p l) := by
  rw [Bool.eq_iff_iff, pyIn_iff, List.any_eq_true]
  constructor
  · intro h
    rw [← joinNl_splitNl c.data] at h
    rcases infix_joinNl hnl hne h with ⟨l, hl, hp⟩
    exact ⟨String.mk l, mem_splitLines_iff.mpr hl, pyIn_iff.mpr hp⟩
  · rintro ⟨l, hl, hp⟩
    have h₁ : p.data <:+: l.data := pyIn_iff.mp hp
    have h₂ : l.data <:+: joinNl (splitNl c.data) :=
      mem_infix_joinNl (mem_splitLines_iff.mp hl)
    rw [joinNl_splitNl c.data] at h₂
    exact h₁.trans h₂

/-! ## Character-level facts about the sanitizer patterns -/

theorem dangerous_wf : ∀ p ∈ dangerous_imports, '\n' ∉ p.data ∧ p.data ≠ [] := by
  decide

theorem pyIn_empty {p : String} (hne : p.data ≠ []) : pyIn p "" = false := by
  cases h : p.data with
  | nil => exact absurd h hne
  | cons c rest => simp [pyIn, infixOfB, h, List.isPrefixOf]

/-! ## Line-level characterization of the removal loop -/

theorem stepLines_no_fire {p : String} {ls : List String}
    (h : ls.any (fun l => pyIn p l) = false) : stepLines p ls = ls := by
  simp [stepLines, h]

theorem foldl_stepLines_no_fire {pats : List String} {ls : List String}
    (h : ∀ p ∈ pats, ls.any (fun l => pyIn p l) = false) :
    pats.foldl (fun acc p => stepLines p acc) ls = ls := by
  induction pats with
  | nil => rfl
  | cons p ps ih =>
    rw [List.foldl_cons, stepLines_no_fire (h p (List.mem_cons_self p ps))]
    exact ih (fun q hq => h q (List.mem_cons_of_mem p hq))

theorem foldl_stepLines_char (pats : List String) (ls : List String)
    (hp : ∀ p ∈ pats, p.data ≠ []) :
    pats.foldl (fun acc p => stepLines p acc) ls =
      if pats.all (fun p => ls.any (fun l => pyIn p l) = false) then ls
      else if (ls.filter (fun l => pats.all (fun p => ! pyIn p l))).isEmpty then [""]
      else ls.filter (fun l => pats.all (fun p => ! pyIn p l)) := by
  induction pats generalizing ls with
  | nil => simp
  | cons p ps ih =>
    have hps : ∀ q ∈ ps, q.data ≠ [] := fun q hq => hp q (List.mem_cons_of_mem p hq)
    rw [List.foldl_cons]
    by_cases hfire : ls.any (fun l => pyIn p l) = true
    · have hcondF :
          ((p :: ps).all fun q => decide ((ls.any fun l => pyIn q l) = false)) = false := by
        rw [List.all_cons]
        have hd : (decide ((ls.any fun l => pyIn p l) = false)) = false := by
          rw [hfire]
          simp
        rw [hd, Bool.false_and]
      have hcondFP :
          ¬ (((p :: ps).all fun q => decide ((ls.any fun l => pyIn q l) = false)) = true) := by
        rw [hcondF]
        simp
      have hcomb : ∀ ms : List String,
          (ms.filter (fun l => ! pyIn p l)).filter (fun l => ps.all (fun q => ! pyIn q l)) =
          ms.filter (fun l => (p :: ps).all (fun q => ! pyIn q l)) := by
        intro ms
        rw [List.filter_filter]
        apply List.filter_congr
        intro l _
        simp [List.all_cons, Bool.and_comm]
      rw [stepLines, if_pos hfire]
      by_cases hemp : (ls.filter (fun l => ! pyIn p l)).isEmpty = true
      · simp only [List.isEmpty_iff] at hemp
        rw [if_pos (by simp [hemp])]
        have hnofire : ∀ q ∈ ps, ([""] : List String).any (fun l => pyIn q l) = false := by
          intro q hq
          simp [pyIn_empty (hps q hq)]
        rw [foldl_stepLines_no_fire hnofire]
        have hkept : ls.filter (fun l => (p :: ps).all (fun q => ! pyIn q l)) = [] := by
          rw [← hcomb, hemp, List.filter_nil]
        rw [if_neg hcondFP, hkept]
        simp
      · rw [if_neg hemp]
        rw [ih _ hps]
        rw [hcomb]
        by_cases hnofire : ps.all
            (fun q => (ls.filter (fun l => ! pyIn p l)).any (fun l => pyIn q l) = false) = true
        · rw [if_pos hnofire]
          have hself : ls.filter (fun l => (p :: ps).all (fun q => ! pyIn q l)) =
              ls.filter (fun l => ! pyIn p l) := by
            rw [← hcomb]
            apply List.filter_eq_self.mpr
            intro l hl
            simp only [List.all_eq_true] at hnofire ⊢
            intro q hq
            have hq' := hnofire q hq
            simp only [decide_eq_true_eq, List.any_eq_false] at hq'
            simpa using hq' l hl
          rw [if_neg hcondFP, hself, if_neg hemp]
        · rw [if_neg hnofire]
          rw [if_neg hcondFP]
    · have hfire' : ls.any (fun l => pyIn p l) = false := by
        cases h : ls.any (fun l => pyIn p l)
        · rfl
        · exact absurd h hfire
      rw [stepLines_no_fire hfire']
      rw [ih _ hps]
      have hfilter : ls.filter (fun l => (p :: ps).all (fun q => ! pyIn q l)) =
          ls.filter (fun l => ps.all (fun q => ! pyIn q l)) := by
        apply List.filter_congr
        intro l hl
        have hlp : pyIn p l = false := by
          rw [List.any_eq_false] at hfire'
          simpa using hfire' l hl
        simp [List.all_cons, hlp]
      have hall : ((p :: ps).all fun q => decide ((ls.any fun l => pyIn q l) = false)) =
          (ps.all fun q => decide ((ls.any fun l => pyIn q l) = false)) := by
        rw [List.all_cons]
        have hd : (decide ((ls.any fun l => pyIn p l) = false)) = true := by
          rw [hfire']
          simp
        rw [hd, Bool.true_and]
      simp only [hall, hfilter]

/-! ## String-level characterization of the sanitizer -/

theorem lines_no_nl {l c : String} (h : l ∈ pySplitLines c) : '\n' ∉ l.data :=
  not_nl_mem_splitNl (mem_splitLines_iff.mp h)

theorem splitLines_joinLines {f : List String} (hne : f ≠ [])
    (hnl : ∀ l ∈ f, '\n' ∉ l.data) : pySplitLines (pyJoinLines f) = f := by
  unfold pySplitLines pyJoinLines
  rw [splitNl_joinNl (by simpa using hne)
    (by
      intro d hd
      rcases List.mem_map.mp hd with ⟨l, hl, rfl⟩
      exact hnl l hl)]
  simp [List.map_map, Function.comp_def]

theorem splitLines_removeDangerousStep (c p : String) (hnl : '\n' ∉ p.data)
    (hne : p.data ≠ []) :
    pySplitLines (removeDangerousStep c p) = stepLines p (pySplitLines c) := by
  unfold removeDangerousStep stepLines
  rw [pyIn_eq_any_lines p c hnl hne]
  by_cases h : (pySplitLines c).any (fun l => pyIn p l) = true
  · rw [if_pos h, if_pos h]
    by_cases hemp : ((pySplitLines c).filter (fun l => ! pyIn p l)).isEmpty = true
    · simp only [List.isEmpty_iff] at hemp
      rw [hemp]
      rw [if_pos (by simp)]
      rfl
    · rw [if_neg hemp]
      apply splitLines_joinLines
      · intro hcontra
        rw [hcontra] at hemp
        exact hemp rfl
      · intro l hl
        exact lines_no_nl (List.mem_of_mem_filter hl)
  · rw [if_neg h, if_neg h]

theorem splitLines_foldRemove (pats : List String) (c : String)
    (hw : ∀ p ∈ pats, '\n' ∉ p.data ∧ p.data ≠ []) :
    pySplitLines (pats.foldl removeDangerousStep c) =
      pats.foldl (fun acc p => stepLines p acc) (pySplitLines c) := by
  induction pats generalizing c with
  | nil => rfl
  | cons p ps ih =>
    rw [List.foldl_cons, List.foldl_cons,
      ih (removeDangerousStep c p) (fun q hq => hw q (List.mem_cons_of_mem p hq)),
      splitLines_removeDangerousStep c p (hw p (List.mem_cons_self p ps)).1
        (hw p (List.mem_cons_self p ps)).2]

theorem list_all_congr {α : Type} {l : List α} {p q : α → Bool}
    (h : ∀ a ∈ l, p a = q a) : l.all p = l.all q := by
  induction l with
  | nil => rfl
  | cons a t ih =>
    simp only [List.all_cons, h a (List.mem_cons_self a t),
      ih (fun b hb => h b (List.mem_cons_of_mem a hb))]

theorem keptLines_spec (c : String) :
    pySplitLines (removeDangerous c) =
      if dangerous_imports.all (fun p => pyIn p c = false) then pySplitLines c
      else if (keptLines c).isEmpty then [""]
      else keptLines c := by
  unfold removeDangerous
  rw [splitLines_foldRemove _ _ dangerous_wf,
    foldl_stepLines_char _ _ (fun p hp => (dangerous_wf p hp).2)]
  have hcond : (dangerous_imports.all fun p =>
        decide (((pySplitLines c).any fun l => pyIn p l) = false)) =
      (dangerous_imports.all fun p => decide (pyIn p c = false)) := by
    apply list_all_congr
    intro p hp
    rw [pyIn_eq_any_lines p c (dangerous_wf p hp).1 (dangerous_wf p hp).2]
  have hfilt : (pySplitLines c).filter
        (fun l => dangerous_imports.all fun p => ! pyIn p l) = keptLines c := rfl
  rw [hcond, hfilt]

theorem removeDangerous_no_pattern (c : String) :
    ∀ p ∈ dangerous_imports, pyIn p (removeDangerous c) = false := by
  intro p hp
  rw [pyIn_eq_any_lines p _ (dangerous_wf p hp).1 (dangerous_wf p hp).2, keptLines_spec]
  by_cases hall : (dangerous_imports.all fun p => decide (pyIn p c = false)) = true
  · rw [if_pos hall]
    rw [← pyIn_eq_any_lines p c (dangerous_wf p hp).1 (dangerous_wf p hp).2]
    simpa using (List.all_eq_true.mp hall) p hp
  · rw [if_neg hall]
    by_cases hemp : (keptLines c).isEmpty = true
    · rw [if_pos hemp]
      simp [pyIn_empty (dangerous_wf p hp).2]
    · rw [if_neg hemp]
      rw [List.any_eq_false]
      intro l hl
      rcases List.mem_filter.mp hl with ⟨_, hclean⟩
      have := List.all_eq_true.mp hclean p hp
      simpa using this

theorem splitLines_header_append (x : String) :
    pySplitLines (manimHeader ++ x) = "from manim import *" :: "" :: pySplitLines x := by
  unfold pySplitLines
  have h1 : (manimHeader ++ x).data = "from manim import *".data ++ '\n' :: '\n' :: x.data :=
    rfl
  rw [h1, splitNl_append_nl (by decide), splitNl_nl_cons]
  rfl

theorem hasManimImport_eq_any (x : String) :
    hasManimImport x = (pySplitLines x).any importLine := by
  unfold hasManimImport importLine
  rw [pyIn_eq_any_lines "from manim import" x (by decide) (by decide),
    pyIn_eq_any_lines "import manim" x (by decide) (by decide)]
  rw [Bool.eq_iff_iff]
  simp only [Bool.or_eq_true, List.any_eq_true]
  constructor
  · rintro (⟨l, hl, h⟩ | ⟨l, hl, h⟩)
    · exact ⟨l, hl, Or.inl h⟩
    · exact ⟨l, hl, Or.inr h⟩
  · rintro ⟨l, hl, h | h⟩
    · exact Or.inl ⟨l, hl, h⟩
    · exact Or.inr ⟨l, hl, h⟩

theorem sanitize_lines (c : String) :
    pySplitLines (sanitize_manim_code c) =
      (if (pySplitLines (removeDangerous c)).any importLine then ([] : List String)
       else ["from manim import *", ""])
      ++ pySplitLines (removeDangerous c) := by
  show pySplitLines
      (if ¬ hasManimImport (removeDangerous c) = true then manimHeader ++ removeDangerous c
       else removeDangerous c) = _
  rw [hasManimImport_eq_any]
  by_cases h : (pySplitLines (removeDangerous c)).any importLine = true
  · rw [if_neg (by simp [h]), if_pos h, List.nil_append]
  · have h' : (pySplitLines (removeDangerous c)).any importLine = false := by
      cases hx : (pySplitLines (removeDangerous c)).any importLine
      · rfl
      · exact absurd hx h
    rw [if_pos (by simp [h']), if_neg h, splitLines_header_append]
    rfl

theorem removeDangerousStep_id {x p : String} (h : pyIn p x = false) :
    removeDangerousStep x p = x := by
  unfold removeDangerousStep
  rw [if_neg (by simp [h])]

theorem foldRemove_id {pats : List String} {x : String}
    (h : ∀ p ∈ pats, pyIn p x = false) : pats.foldl removeDangerousStep x = x := by
  induction pats with
  | nil => rfl
  | cons p ps ih =>
    rw [List.foldl_cons, removeDangerousStep_id (h p (List.mem_cons_self p ps))]
    exact ih (fun q hq => h q (List.mem_cons_of_mem p hq))

theorem sanitize_fixed {x : String}
    (hclean : ∀ p ∈ dangerous_imports, pyIn p x = false)
    (himp : hasManimImport x = true) : sanitize_manim_code x = x := by
  show (if ¬ hasManimImport (removeDangerous x) = true then manimHeader ++ removeDangerous x
        else removeDangerous x) = x
  rw [show removeDangerous x = x from foldRemove_id hclean, if_neg (by simp [himp])]

theorem dangerous_not_in_header_line :
    ∀ p ∈ dangerous_imports, pyIn p "from manim import *" = false ∧ pyIn p "" = false := by
  decide

theorem sanitize_no_pattern (c : String) :
    ∀ p ∈ dangerous_imports, pyIn p (sanitize_manim_code c) = false := by
  intro p hp
  show pyIn p (if ¬ hasManimImport (removeDangerous c) = true
      then manimHeader ++ removeDangerous c else removeDangerous c) = false
  by_cases h : hasManimImport (removeDangerous c) = true
  · rw [if_neg (by simp [h])]
    exact removeDangerous_no_pattern c p hp
  · rw [if_pos (by simpa using h)]
    rw [pyIn_eq_any_lines p _ (dangerous_wf p hp).1 (dangerous_wf p hp).2,
      splitLines_header_append]
    have hr : (pySplitLines (removeDangerous c)).any (fun l => pyIn p l) = false := by
      rw [← pyIn_eq_any_lines p _ (dangerous_wf p hp).1 (dangerous_wf p hp).2]
      exact removeDangerous_no_pattern c p hp
    simp [List.any_cons, hr, (dangerous_not_in_header_line p hp).1,
      (dangerous_not_in_header_line p hp).2]

theorem sanitize_import (c : String) :
    hasManimImport (sanitize_manim_code c) = true := by
  show hasManimImport (if ¬ hasManimImport (removeDangerous c) = true
      then manimHeader ++ removeDangerous c else removeDangerous c) = true
  by_cases h : hasManimImport (removeDangerous c) = true
  · rw [if_neg (by simp [h]), h]
  · rw [if_pos (by simpa using h)]
    rw [hasManimImport_eq_any, splitLines_header_append]
    have himp : importLine "from manim import *" = true := by decide
    simp [List.any_cons, himp]

theorem sanitize_idem (c : String) :
    sanitize_manim_code (sanitize_manim_code c) = sanitize_manim_code c :=
  sanitize_fixed (sanitize_no_pattern c) (sanitize_import c)

theorem sanitize_lines_clean (c : String) :
    (pySplitLines (sanitize_manim_code c)).all cleanLine = true := by
  rw [List.all_eq_true]
  intro l hl
  rw [cleanLine, List.all_eq_true]
  intro p hp
  have h := sanitize_no_pattern c p hp
  rw [pyIn_eq_any_lines p _ (dangerous_wf p hp).1 (dangerous_wf p hp).2,
    List.any_eq_false] at h
  simpa using h l hl

/-! ## Node-level state facts -/

theorem intention_detector_retry (loads : JsonOracle) (r : LLMContent)
    (s : EducationalState) : (intention_detector loads r s).retry_count = s.retry_count := by
  simp only [intention_detector]

theorem static_generator_retry (r : LLMContent) (s : EducationalState) :
    (static_generator r s).retry_count = s.retry_count := by
  simp only [static_generator]

theorem dynamic_generator_retry (r : LLMContent) (s : EducationalState) :
    (dynamic_generator r s).retry_count = s.retry_count := by
  simp only [dynamic_generator]

theorem improvement_agent_retry (r : LLMContent) (s : EducationalState) :
    (improvement_agent r s).retry_count = s.retry_count := by
  simp only [improvement_agent]

theorem code_fixer_retry (r : LLMContent) (s : EducationalState) :
    (code_fixer r s).retry_count = s.retry_count + 1 := by
  simp only [code_fixer]

theorem media_generator_retry (env : MediaEnv) (s : EducationalState) :
    (media_generator env s).state.retry_count = s.retry_count := by
  simp only [media_generator]
  repeat' split
  all_goals rfl

theorem media_generator_status (env : MediaEnv) (s : EducationalState) :
    (media_generator env s).state.execution_status = "success" ∨
    (media_generator env s).state.execution_status = "failed" := by
  simp only [media_generator]
  repeat' split
  all_goals first | exact Or.inl rfl | exact Or.inr rfl

theorem media_generator_success_fields (env : MediaEnv) (s : EducationalState)
    (h : (media_generator env s).state.execution_status = "success") :
    (media_generator env s).state.media_path.isSome = true ∧
    (media_generator env s).state.media_type.isSome = true ∧
    (media_generator env s).state.error_message = none := by
  revert h
  simp only [media_generator]
  repeat' split
  all_goals intro h
  all_goals first
    | exact ⟨rfl, rfl, rfl⟩
    | simp at h

theorem media_generator_failed_error (env : MediaEnv) (s : EducationalState)
    (h : (media_generator env s).state.execution_status = "failed") :
    (media_generator env s).state.error_message.isSome = true := by
  revert h
  simp only [media_generator]
  repeat' split
  all_goals intro h
  all_goals first
    | rfl
    | simp at h

/-! ## Routing facts -/

theorem route_by_intention_cases (s : EducationalState) :
    route_by_intention s = .staticGenerator ∨ route_by_intention s = .dynamicGenerator ∨
    route_by_intention s = .improvementAgent := by
  unfold route_by_intention
  split
  · exact Or.inl rfl
  · split
    · exact Or.inr (Or.inl rfl)
    · split
      · exact Or.inr (Or.inr rfl)
      · exact Or.inl rfl

theorem route_after_media_codeFixer {s : EducationalState}
    (h : route_after_media_generation s = .codeFixer) :
    s.execution_status = "failed" ∧ s.retry_count < MAX_RETRIES := by
  unfold route_after_media_generation at h
  split at h
  · exact Node.noConfusion h
  · split at h
    · rename_i hcond
      simpa using hcond
    · exact Node.noConfusion h

theorem route_after_media_cases (s : EducationalState) :
    route_after_media_generation s = .endNode ∨
    route_after_media_generation s = .codeFixer := by
  unfold route_after_media_generation
  split
  · exact Or.inl rfl
  · split
    · exact Or.inr rfl
    · exact Or.inl rfl

/-! ## The run invariant -/

theorem reaches_invariant {env : WorkflowEnv} {pdf : String} {q ec : Option String}
    {cfg : Config} (h : Reaches env (initConfig pdf q ec) cfg) :
    cfg.state.retry_count = cfg.fixCalls ∧ cfg.state.retry_count ≤ MAX_RETRIES ∧
    (cfg.node = .codeFixer →
      cfg.state.execution_status = "failed" ∧ cfg.state.retry_count < MAX_RETRIES) := by
  induction h with
  | refl =>
    refine ⟨rfl, by simp [initConfig, initialState, MAX_RETRIES], ?_⟩
    intro hc
    exact absurd hc (by simp [initConfig])
  | @tail c c' hr hstep ih =>
    rcases ih with ⟨ih1, ih2, ih3⟩
    unfold step at hstep
    cases hnode : c.node with
    | intentionDetector =>
      rw [hnode] at hstep
      simp only [Option.some.injEq] at hstep
      subst hstep
      refine ⟨by simpa [intention_detector_retry] using ih1,
        by simpa [intention_detector_retry] using ih2, ?_⟩
      intro hc
      have hc' : route_by_intention (intention_detector env.loads env.detectResponse c.state) =
          Node.codeFixer := hc
      rcases route_by_intention_cases (intention_detector env.loads env.detectResponse c.state)
        with h1 | h1 | h1 <;> rw [h1] at hc' <;> exact Node.noConfusion hc'
    | staticGenerator =>
      rw [hnode] at hstep
      simp only [Option.some.injEq] at hstep
      subst hstep
      exact ⟨by simpa [static_generator_retry] using ih1,
        by simpa [static_generator_retry] using ih2,
        fun hc => Node.noConfusion hc⟩
    | dynamicGenerator =>
      rw [hnode] at hstep
      simp only [Option.some.injEq] at hstep
      subst hstep
      exact ⟨by simpa [dynamic_generator_retry] using ih1,
        by simpa [dynamic_generator_retry] using ih2,
        fun hc => Node.noConfusion hc⟩
    | improvementAgent =>
      rw [hnode] at hstep
      simp only [Option.some.injEq] at hstep
      subst hstep
      exact ⟨by simpa [improvement_agent_retry] using ih1,
        by simpa [improvement_agent_retry] using ih2,
        fun hc => Node.noConfusion hc⟩
    | mediaGenerator =>
      rw [hnode] at hstep
      simp only [Option.some.injEq] at hstep
      subst hstep
      refine ⟨by simpa [media_generator_retry] using ih1,
        by simpa [media_generator_retry] using ih2, ?_⟩
      intro hc
      exact route_after_media_codeFixer hc
    | codeFixer =>
      rw [hnode] at hstep
      simp only [Option.some.injEq] at hstep
      subst hstep
      have hlt := (ih3 hnode).2
      refine ⟨?_, ?_, fun hc => Node.noConfusion hc⟩
      · simp [code_fixer_retry, ih1]
      · simp only [code_fixer_retry]
        omega
    | endNode =>
      rw [hnode] at hstep
      exact absurd hstep (by simp)

theorem reaches_end_state {env : WorkflowEnv} {pdf : String} {q ec : Option String}
    {cfg : Config} (h : Reaches env (initConfig pdf q ec) cfg)
    (hend : cfg.node = Node.endNode) :
    (cfg.state.execution_status = "success" →
      cfg.state.media_path.isSome = true ∧ cfg.state.media_type.isSome = true ∧
      cfg.state.error_message = none) ∧
    (cfg.state.execution_status = "failed" → cfg.state.error_message.isSome = true) := by
  induction h with
  | refl =>
    have hc : Node.intentionDetector = Node.endNode := hend
    exact Node.noConfusion hc
  | @tail c c' hr hstep ih =>
    unfold step at hstep
    cases hnode : c.node with
    | intentionDetector =>
      rw [hnode] at hstep
      simp only [Option.some.injEq] at hstep
      subst hstep
      have hc' : route_by_intention (intention_detector env.loads env.detectResponse c.state) =
          Node.endNode := hend
      rcases route_by_intention_cases (intention_detector env.loads env.detectResponse c.state)
        with h1 | h1 | h1 <;> rw [h1] at hc' <;> exact Node.noConfusion hc'
    | staticGenerator =>
      rw [hnode] at hstep
      simp only [Option.some.injEq] at hstep
      subst hstep
      exact Node.noConfusion hend
    | dynamicGenerator =>
      rw [hnode] at hstep
      simp only [Option.some.injEq] at hstep
      subst hstep
      exact Node.noConfusion hend
    | improvementAgent =>
      rw [hnode] at hstep
      simp only [Option.some.injEq] at hstep
      subst hstep
      exact Node.noConfusion hend
    | mediaGenerator =>
      rw [hnode] at hstep
      simp only [Option.some.injEq] at hstep
      subst hstep
      exact ⟨media_generator_success_fields (env.mediaEnv c.mediaCalls) c.state,
        media_generator_failed_error (env.mediaEnv c.mediaCalls) c.state⟩
    | codeFixer =>
      rw [hnode] at hstep
      simp only [Option.some.injEq] at hstep
      subst hstep
      exact Node.noConfusion hend
    | endNode =>
      rw [hnode] at hstep
      exact absurd hstep (by simp)

/-! ## Validator facts -/

theorem validate_valid_scene {compileFn : CompileOracle} {code : String}
    (h : (validate_manim_code compileFn code).is_valid = true) :
    (extract_scene_name code).isSome = true := by
  cases hsn : extract_scene_name code with
  | some n => rfl
  | none =>
    have hfalse : (validate_manim_code compileFn code).is_valid = false := by
      simp only [validate_manim_code, hsn]
      split <;> rfl
    rw [hfalse] at h
    exact Bool.noConfusion h

/-! ## Claim theorems -/

/-- C1: for every run of the workflow, retry_count at termination is at
    most MAX_RETRIES (5) and equals the number of code_fixer (repair)
    invocations performed; the repair node is entered from execution only
    when execution_status is failed and retry_count < 5, so after five
    consecutive execution failures the run terminates without a sixth
    repair attempt. -/
theorem c1_retry_bound {env : WorkflowEnv} {pdf : String} {q ec : Option String}
    {cfg : Config} (h : Reaches env (initConfig pdf q ec) cfg) :
    (cfg.node = Node.endNode →
      cfg.state.retry_count ≤ MAX_RETRIES ∧ cfg.state.retry_count = cfg.fixCalls) ∧
    (cfg.node = Node.codeFixer →
      cfg.state.execution_status = "failed" ∧ cfg.state.retry_count < MAX_RETRIES) := by
  rcases reaches_invariant h with ⟨h1, h2, h3⟩
  exact ⟨fun _ => ⟨h2, h1⟩, h3⟩

set_option maxRecDepth 100000 in
/-- Witness for C1: the concrete successful run terminates with the bound
    satisfied and a repair count equal to the retry count. -/
theorem c1_retry_bound_witness :
    wFinal.state.retry_count ≤ MAX_RETRIES ∧ wFinal.state.retry_count = wFinal.fixCalls := by
  have h1 : Reaches wEnv (initConfig "pdf" none none)
      (runSteps wEnv 1 (initConfig "pdf" none none)) :=
    Reaches.tail Reaches.refl rfl
  have h2 : Reaches wEnv (initConfig "pdf" none none)
      (runSteps wEnv 2 (initConfig "pdf" none none)) :=
    Reaches.tail h1 rfl
  have h3 : Reaches wEnv (initConfig "pdf" none none) wFinal :=
    Reaches.tail h2 rfl
  exact (c1_retry_bound h3).1 rfl

/-- C2: every run reaching the terminal state has media_path and
    media_type present and error_message absent when execution_status is
    success, and error_message present when it is failed. -/
theorem c2_terminal_fields {env : WorkflowEnv} {pdf : String} {q ec : Option String}
    {cfg : Config} (h : Reaches env (initConfig pdf q ec) cfg)
    (hend : cfg.node = Node.endNode) :
    (cfg.state.execution_status = "success" →
      cfg.state.media_path.isSome = true ∧ cfg.state.media_type.isSome = true ∧
      cfg.state.error_message = none) ∧
    (cfg.state.execution_status = "failed" →
      cfg.state.error_message.isSome = true) :=
  reaches_end_state h hend

set_option maxRecDepth 100000 in
/-- Witness for C2: the concrete successful run ends with media fields
    present and no error. -/
theorem c2_terminal_fields_witness :
    wFinal.state.media_path.isSome = true ∧ wFinal.state.media_type.isSome = true ∧
    wFinal.state.error_message = none := by
  have h1 : Reaches wEnv (initConfig "pdf" none none)
      (runSteps wEnv 1 (initConfig "pdf" none none)) :=
    Reaches.tail Reaches.refl rfl
  have h2 : Reaches wEnv (initConfig "pdf" none none)
      (runSteps wEnv 2 (initConfig "pdf" none none)) :=
    Reaches.tail h1 rfl
  have h3 : Reaches wEnv (initConfig "pdf" none none) wFinal :=
    Reaches.tail h2 rfl
  exact (c2_terminal_fields h3 rfl).1 rfl

/-- C3: one code_fixer invocation replaces the generated code with the
    extracted and sanitized response, clears error_message, resets
    execution_status to pending and increments retry_count by exactly
    one; no other node of the system changes retry_count. -/
theorem c3_code_fixer_contract :
    (∀ (r : LLMContent) (s : EducationalState),
      (code_fixer r s).manim_code = sanitize_manim_code (extract_code_block r) ∧
      (code_fixer r s).error_message = none ∧
      (code_fixer r s).execution_status = "pending" ∧
      (code_fixer r s).retry_count = s.retry_count + 1) ∧
    (∀ (loads : JsonOracle) (r : LLMContent) (s : EducationalState),
      (intention_detector loads r s).retry_count = s.retry_count) ∧
    (∀ (r : LLMContent) (s : EducationalState),
      (static_generator r s).retry_count = s.retry_count ∧
      (dynamic_generator r s).retry_count = s.retry_count ∧
      (improvement_agent r s).retry_count = s.retry_count) ∧
    (∀ (env : MediaEnv) (s : EducationalState),
      (media_generator env s).state.retry_count = s.retry_count) := by
  refine ⟨fun r s => ?_,
    fun loads r s => intention_detector_retry loads r s,
    fun r s => ⟨static_generator_retry r s, dynamic_generator_retry r s,
      improvement_agent_retry r s⟩,
    fun env s => media_generator_retry env s⟩
  refine ⟨?_, ?_, ?_, ?_⟩ <;> simp only [code_fixer]

/-- C4: sanitization is idempotent; after one pass no line containing a
    disallowed substring remains and the manim import-presence check is
    satisfied, so the second pass changes nothing. -/
theorem c4_sanitize_idempotent (c : String) :
    sanitize_manim_code (sanitize_manim_code c) = sanitize_manim_code c ∧
    (pySplitLines (sanitize_manim_code c)).all cleanLine = true ∧
    hasManimImport (sanitize_manim_code c) = true :=
  ⟨sanitize_idem c, sanitize_lines_clean c, sanitize_import c⟩

/-- C5: for code containing a line with a disallowed substring, the
    sanitizer output consists exactly of the unaltered clean lines of the
    input (preceded by the default import header when no surviving line
    carries a manim import, and collapsing to the single empty line when
    no line survives); in particular every disallowed line is removed and
    no other input line is altered. -/
theorem c5_sanitize_removes_exact_lines (c : String)
    (hdirty : (pySplitLines c).all cleanLine = false) :
    pySplitLines (sanitize_manim_code c) =
      (if (if (keptLines c).isEmpty then [""] else keptLines c).any importLine
       then ([] : List String) else ["from manim import *", ""])
      ++ (if (keptLines c).isEmpty then [""] else keptLines c) ∧
    (pySplitLines (sanitize_manim_code c)).all cleanLine = true := by
  have hexdirty : ∃ l ∈ pySplitLines c, cleanLine l = false := by
    by_contra hno
    push_neg at hno
    have hall2 : ∀ l ∈ pySplitLines c, cleanLine l = true := by
      intro l hl
      cases hc : cleanLine l
      · exact absurd hc (hno l hl)
      · rfl
    rw [List.all_eq_true.mpr hall2] at hdirty
    exact Bool.noConfusion hdirty
  have hremove : pySplitLines (removeDangerous c) =
      if (keptLines c).isEmpty then [""] else keptLines c := by
    rw [keptLines_spec]
    rw [if_neg ?hcond]
    case hcond =>
      intro hall
      rcases hexdirty with ⟨l, hl, hlc⟩
      have hexp : ∃ p ∈ dangerous_imports, pyIn p l = true := by
        by_contra hnop
        push_neg at hnop
        have : ∀ p ∈ dangerous_imports, (! pyIn p l) = true := by
          intro p hp
          cases hc : pyIn p l
          · rfl
          · exact absurd hc (hnop p hp)
        rw [cleanLine, List.all_eq_true.mpr this] at hlc
        exact Bool.noConfusion hlc
      rcases hexp with ⟨p, hp, hpl⟩
      have hpc : pyIn p c = true := by
        rw [pyIn_eq_any_lines p c (dangerous_wf p hp).1 (dangerous_wf p hp).2]
        exact List.any_eq_true.mpr ⟨l, hl, hpl⟩
      have := List.all_eq_true.mp hall p hp
      rw [hpc] at this
      simp at this
  constructor
  · rw [sanitize_lines c, hremove]
  · exact sanitize_lines_clean c

/-- Witness for C5 at a concrete input with one disallowed line. -/
theorem c5_sanitize_removes_exact_lines_witness :
    (pySplitLines "from manim import *\nimport subprocess\nx = 1").all cleanLine = false ∧
    pySplitLines (sanitize_manim_code "from manim import *\nimport subprocess\nx = 1") =
      (if (if (keptLines "from manim import *\nimport subprocess\nx = 1").isEmpty then [""]
           else keptLines "from manim import *\nimport subprocess\nx = 1").any importLine
       then ([] : List String) else ["from manim import *", ""])
      ++ (if (keptLines "from manim import *\nimport subprocess\nx = 1").isEmpty then [""]
          else keptLines "from manim import *\nimport subprocess\nx = 1") :=
  ⟨by decide,
   (c5_sanitize_removes_exact_lines "from manim import *\nimport subprocess\nx = 1"
     (by decide)).1⟩

/-- C6 counterexample: a response whose fenced block parses to nothing
    yields a summary taken from the fence-extracted content, not from the
    first 200 characters of the raw response. -/
theorem c6_summary_counterexample :
    (intention_detector (fun _ => none) (.str "```\nhello\n```tail")
      (initialState "p" none none)).analysis_summary = PyVal.str "hello\n" ∧
    PyVal.str "hello\n" ≠ PyVal.str (pyTake 200 "```\nhello\n```tail") := by
  constructor
  · rfl
  · intro h
    injection h with h'
    exact absurd h' (by decide)

/-- C6 (amended): when json parsing fails on the fence-extracted content,
    the classifier returns curriculum unknown, intention static, empty
    concepts, and a summary equal to the first 200 characters of the
    fence-extracted content (the raw response when no fenced block is
    present), or the fixed message when that content is empty. -/
theorem c6_detector_default (loads : JsonOracle) (response : LLMContent)
    (s : EducationalState)
    (hfail : loads (pyStrip (extractJsonBlock (normalizeContent response))) = none) :
    (intention_detector loads response s).curriculum_component = "unknown" ∧
    (intention_detector loads response s).intention_type = "static" ∧
    (intention_detector loads response s).detected_concepts = [] ∧
    (intention_detector loads response s).analysis_summary =
      PyVal.str (if extractJsonBlock (normalizeContent response) ≠ "" then
        pyTake 200 (extractJsonBlock (normalizeContent response))
        else "Unable to parse response") := by
  simp only [intention_detector, parse_json_response, hfail]
  exact ⟨rfl, rfl, rfl, rfl⟩

/-- Witness for C6 at a concrete unparseable response. -/
theorem c6_detector_default_witness :
    (intention_detector (fun _ => none) (.str "hi")
      (initialState "p" none none)).curriculum_component = "unknown" ∧
    (intention_detector (fun _ => none) (.str "hi")
      (initialState "p" none none)).intention_type = "static" ∧
    (intention_detector (fun _ => none) (.str "hi")
      (initialState "p" none none)).detected_concepts = [] ∧
    (intention_detector (fun _ => none) (.str "hi")
      (initialState "p" none none)).analysis_summary =
      PyVal.str (if extractJsonBlock (normalizeContent (.str "hi")) ≠ "" then
        pyTake 200 (extractJsonBlock (normalizeContent (.str "hi")))
        else "Unable to parse response") :=
  c6_detector_default (fun _ => none) (.str "hi") (initialState "p" none none) rfl

/-- C7: the validator checks short-circuit in source order: empty code
    first, then missing Scene class (regardless of the compiler verdict,
    so code lacking an entry point and containing a syntax error reports
    the missing-entry-point error), then missing construct method, then
    syntax compilation (before the heuristic detectors). -/
theorem c7_validator_ordering :
    (∀ (compileFn : CompileOracle) (code : String),
      (code = "" ∨ pyStrip code = "") →
      validate_manim_code compileFn code =
        { is_valid := false, error_message := some "Code is empty",
          suggestions := ["Provide valid Manim code with a Scene class"] }) ∧
    (∀ (compileFn : CompileOracle) (code : String) (e : PySyntaxError),
      ¬ code = "" → ¬ pyStrip code = "" →
      extract_scene_name code = none → compileFn code = some e →
      validate_manim_code compileFn code =
        { is_valid := false, error_message := some "No Scene class found in code",
          suggestions := ["Create a class that inherits from Scene, e.g., " ++ sq ++
            "class MyScene(Scene):" ++ sq] }) ∧
    (∀ (compileFn : CompileOracle) (code : String) (n : String) (e : PySyntaxError),
      ¬ code = "" → ¬ pyStrip code = "" →
      extract_scene_name code = some n → pyIn "def construct(self" code = false →
      compileFn code = some e →
      validate_manim_code compileFn code =
        { is_valid := false,
          error_message := some "No construct method found in Scene class",
          suggestions := ["Add " ++ sq ++ "def construct(self):" ++ sq ++
            " method to your Scene class"] }) ∧
    (∀ (compileFn : CompileOracle) (code : String) (n : String) (e : PySyntaxError),
      ¬ code = "" → ¬ pyStrip code = "" →
      extract_scene_name code = some n → pyIn "def construct(self" code = true →
      compileFn code = some e →
      validate_manim_code compileFn code =
        { is_valid := false, error_message := some ("Syntax error: " ++ e.msg),
          error_line := some e.lineno,
          suggestions := ["Fix syntax error on line " ++ toString e.lineno ++
            ": " ++ e.msg] }) := by
  refine ⟨?_, ?_, ?_, ?_⟩
  · intro compileFn code hemp
    simp only [validate_manim_code]
    rcases hemp with h | h <;> rw [if_pos (by simp [h])]
  · intro compileFn code e hne1 hne2 hscene _
    simp only [validate_manim_code]
    rw [if_neg (by simp [hne1, hne2])]
    simp only [hscene]
  · intro compileFn code n e hne1 hne2 hscene hcon _
    simp only [validate_manim_code]
    rw [if_neg (by simp [hne1, hne2])]
    simp only [hscene]
    rw [if_pos (by simp [hcon])]
  · intro compileFn code n e hne1 hne2 hscene hcon hsyn
    simp only [validate_manim_code]
    rw [if_neg (by simp [hne1, hne2])]
    simp only [hscene]
    rw [if_neg (by simp [hcon])]
    simp only [hsyn]

/-- Witness for C7: each precedence instantiated at a concrete input. -/
theorem c7_validator_ordering_witness :
    validate_manim_code (fun _ => some { msg := "bad", lineno := 1 }) "" =
      { is_valid := false, error_message := some "Code is empty",
        suggestions := ["Provide valid Manim code with a Scene class"] } ∧
    validate_manim_code (fun _ => some { msg := "bad", lineno := 1 }) "x = 1" =
      { is_valid := false, error_message := some "No Scene class found in code",
        suggestions := ["Create a class that inherits from Scene, e.g., " ++ sq ++
          "class MyScene(Scene):" ++ sq] } ∧
    validate_manim_code (fun _ => some { msg := "bad", lineno := 1 })
        "from manim import *\nclass A(Scene):\n    pass" =
      { is_valid := false,
        error_message := some "No construct method found in Scene class",
        suggestions := ["Add " ++ sq ++ "def construct(self):" ++ sq ++
          " method to your Scene class"] } ∧
    validate_manim_code (fun _ => some { msg := "bad", lineno := 7 }) okCode =
      { is_valid := false, error_message := some ("Syntax error: " ++ "bad"),
        error_line := some 7,
        suggestions := ["Fix syntax error on line " ++ toString (7 : Nat) ++
          ": " ++ "bad"] } :=
  ⟨c7_validator_ordering.1 _ "" (Or.inl rfl),
   c7_validator_ordering.2.1 _ "x = 1" { msg := "bad", lineno := 1 }
     (by decide) (by decide) rfl rfl,
   c7_validator_ordering.2.2.1 _ "from manim import *\nclass A(Scene):\n    pass"
     "A" { msg := "bad", lineno := 1 } (by decide) (by decide) rfl rfl rfl,
   c7_validator_ordering.2.2.2 _ okCode "MyScene" { msg := "bad", lineno := 7 }
     (by decide) (by decide) rfl rfl rfl⟩

/-- C8 counterexample: at the empty code string static validation is
    invalid, yet the engine fails with its own no-code message rather
    than the validator message with suggestions appended. -/
theorem c8_empty_code_counterexample :
    (validate_manim_code okMediaEnv.pyCompile "").is_valid = false ∧
    (media_generator okMediaEnv (initialState "p" none none)).state.execution_status =
      "failed" ∧
    (media_generator okMediaEnv (initialState "p" none none)).state.error_message =
      some "No Manim code to execute" ∧
    some "No Manim code to execute" ≠
      some ("Code is empty" ++ ". Suggestions: " ++
        joinSemicolon ["Provide valid Manim code with a Scene class"]) :=
  ⟨rfl, rfl, rfl, by decide⟩

/-- C8 (amended): for every nonempty code string failing static
    validation, the engine fails immediately with the validator message
    (suggestions appended when present) and no rendering subprocess is
    spawned. -/
theorem c8_invalid_code_fails_without_subprocess (env : MediaEnv)
    (s : EducationalState) (hne : ¬ s.manim_code = "")
    (hinv : (validate_manim_code env.pyCompile s.manim_code).is_valid = false) :
    (media_generator env s).branch = MediaBranch.invalidCode ∧
    branchSpawned (media_generator env s).branch = false ∧
    (media_generator env s).state.execution_status = "failed" ∧
    (media_generator env s).state.error_message = some
      (if ¬ (validate_manim_code env.pyCompile s.manim_code).suggestions.isEmpty = true
       then (validate_manim_code env.pyCompile s.manim_code).error_message.getD
              "Code validation failed" ++ ". Suggestions: " ++
              joinSemicolon (validate_manim_code env.pyCompile s.manim_code).suggestions
       else (validate_manim_code env.pyCompile s.manim_code).error_message.getD
              "Code validation failed") := by
  simp only [media_generator]
  rw [if_neg hne, if_pos hinv]
  exact ⟨rfl, rfl, rfl, rfl⟩

/-- Witness for C8 at a nonempty code string without a Scene class. -/
theorem c8_invalid_code_witness :
    (media_generator okMediaEnv
      { initialState "p" none none with manim_code := "x = 1" }).branch =
      MediaBranch.invalidCode ∧
    branchSpawned (media_generator okMediaEnv
      { initialState "p" none none with manim_code := "x = 1" }).branch = false ∧
    (media_generator okMediaEnv
      { initialState "p" none none with manim_code := "x = 1" }).state.execution_status =
      "failed" :=
  ⟨(c8_invalid_code_fails_without_subprocess okMediaEnv
      { initialState "p" none none with manim_code := "x = 1" } (by decide) rfl).1,
   (c8_invalid_code_fails_without_subprocess okMediaEnv
      { initialState "p" none none with manim_code := "x = 1" } (by decide) rfl).2.1,
   (c8_invalid_code_fails_without_subprocess okMediaEnv
      { initialState "p" none none with manim_code := "x = 1" } (by decide) rfl).2.2.1⟩

set_option maxRecDepth 100000 in
/-- C9 counterexample: with a long stderr and a nonempty stdout the
    engine keeps the head of stderr alone, which differs from the tail of
    the combined stderr and stdout text the claim describes. -/
theorem c9_truncation_counterexample :
    (media_generator c9Env okState).state.error_message =
      some ("Manim execution failed: " ++ pyTake 1000 c9Stderr) ∧
    ("Manim execution failed: " ++ pyTake 1000 c9Stderr) ≠
      ("Manim execution failed: " ++ tailChars 1000 (c9Stderr ++ "out1")) :=
  ⟨rfl, by decide⟩

/-- C9 (amended): when the rendering subprocess exits nonzero on
    validated code, the engine fails with the execution-failure marker
    followed by the first 1000 characters of stderr when nonempty, else
    of stdout when nonempty, else of a fixed message. -/
theorem c9_exec_failure_message (env : MediaEnv) (s : EducationalState)
    (r : SubprocessResult) (hne : ¬ s.manim_code = "")
    (hval : (validate_manim_code env.pyCompile s.manim_code).is_valid = true)
    (hexec : env.exec = ExecOutcome.completed r) (hrc : r.returncode ≠ 0) :
    (media_generator env s).branch = MediaBranch.execFailed ∧
    (media_generator env s).state.execution_status = "failed" ∧
    (media_generator env s).state.error_message = some ("Manim execution failed: " ++
      pyTake 1000 (if r.stderr ≠ "" then r.stderr
        else if r.stdout ≠ "" then r.stdout else "Unknown Manim error")) := by
  simp only [media_generator]
  rw [if_neg hne, if_neg (by simp [hval])]
  obtain ⟨n, hn⟩ := Option.isSome_iff_exists.mp (validate_valid_scene hval)
  simp only [hn, hexec]
  rw [if_pos hrc]
  exact ⟨rfl, rfl, rfl⟩

/-- Witness for C9 at a concrete failing subprocess. -/
theorem c9_exec_failure_message_witness :
    (media_generator failMediaEnv okState).branch = MediaBranch.execFailed ∧
    (media_generator failMediaEnv okState).state.execution_status = "failed" ∧
    (media_generator failMediaEnv okState).state.error_message =
      some ("Manim execution failed: " ++
        pyTake 1000 (if ("boom" : String) ≠ "" then "boom"
          else if ("" : String) ≠ "" then "" else "Unknown Manim error")) :=
  c9_exec_failure_message failMediaEnv okState
    { returncode := 1, stdout := "", stderr := "boom" } (by decide) rfl rfl (by decide)

/-- C10: code accepted by the static validator always yields a scene
    name, so the engine branch reporting a missing Scene class is
    unreachable for validated code. -/
theorem c10_valid_code_has_scene :
    (∀ (compileFn : CompileOracle) (code : String),
      (validate_manim_code compileFn code).is_valid = true →
      (extract_scene_name code).isSome = true) ∧
    (∀ (env : MediaEnv) (s : EducationalState),
      (validate_manim_code env.pyCompile s.manim_code).is_valid = true →
      (media_generator env s).branch ≠ MediaBranch.sceneNotFound) := by
  refine ⟨fun compileFn code h => validate_valid_scene h, fun env s hval => ?_⟩
  by_cases hne : s.manim_code = ""
  · exfalso
    rw [hne] at hval
    have hf : (validate_manim_code env.pyCompile "").is_valid = false := by
      simp only [validate_manim_code]
      rw [if_pos (by simp)]
    rw [hf] at hval
    exact Bool.noConfusion hval
  · simp only [media_generator]
    rw [if_neg hne, if_neg (by simp [hval])]
    obtain ⟨n, hn⟩ := Option.isSome_iff_exists.mp (validate_valid_scene hval)
    simp only [hn]
    cases hexec : env.exec with
    | timeout => exact fun hc => MediaBranch.noConfusion hc
    | exn m => exact fun hc => MediaBranch.noConfusion hc
    | completed r =>
      dsimp only
      by_cases hrc : r.returncode ≠ 0
      · rw [if_pos hrc]
        exact fun hc => MediaBranch.noConfusion hc
      · rw [if_neg hrc]
        cases hfm : env.foundMedia with
        | none =>
          simp only [hfm]
          exact fun hc => MediaBranch.noConfusion hc
        | some ext =>
          simp only [hfm]
          exact fun hc => MediaBranch.noConfusion hc

/-- Witness for C10 at the concrete valid scene. -/
theorem c10_valid_code_has_scene_witness :
    (extract_scene_name okCode).isSome = true ∧
    (media_generator okMediaEnv okState).branch ≠ MediaBranch.sceneNotFound :=
  ⟨c10_valid_code_has_scene.1 (fun _ => none) okCode rfl,
   c10_valid_code_has_scene.2 okMediaEnv okState rfl⟩

end BBF
